import Mathlib

/-
Verification of the agent-orchestration core of `src/inngest/functions.ts`.

The development shallowly embeds the orchestration-relevant code:
pure decision logic (router, error classification, persisted record) is
translated directly; the external sandbox and model backend are modelled
as oracles supplying outcomes (command results, write failures, read
outcomes, turn transcripts); the durable-step substrate is modelled as
plain sequential execution, which is what a single non-retried run does.
-/

set_option autoImplicit false

/-- Sentinel substring whose presence in the last assistant text message
signals task completion (line 144 of the source). -/
def sentinel : String := "<task_summary>"

/-- Character-list helper: `leadsWith needle hay` is true when `needle`
is an initial segment of `hay`.  Building block for the JavaScript
`String.prototype.includes` test used by the Completion Detector. -/
def leadsWith : List Char → List Char → Bool
  | [], _ => true
  | _ :: _, [] => false
  | n :: ns, h :: hs => (n == h) && leadsWith ns hs

/-- Character-list helper: `occursIn needle hay` is true when `needle`
occurs contiguously somewhere inside `hay`. -/
def occursIn (needle : List Char) : List Char → Bool
  | [] => needle.isEmpty
  | h :: hs => leadsWith needle (h :: hs) || occursIn needle hs

/-- Embedding of the JavaScript substring test `hay.includes(needle)`. -/
def jsIncludes (hay needle : String) : Bool :=
  occursIn needle.data hay.data

/-- Embedding of JavaScript truthiness for an optional string field
(`undefined` and the empty string are falsy, everything else truthy). -/
def jsTruthyStr : Option String → Bool
  | none => false
  | some s => if s = "" then false else true

/-- File map of the shared state: a JavaScript object keyed by path.
Represented as an association list in insertion order with unique keys,
which is exactly the key ordering JavaScript objects maintain. -/
abbrev FileMap := List (String × String)

/-- Embedding of the JavaScript assignment `obj[path] = content`: an
existing key is updated in place, a new key is appended at the end. -/
def setKey (fs : FileMap) (p c : String) : FileMap :=
  if (fs.lookup p).isSome then
    fs.map (fun e => if e.1 = p then (p, c) else e)
  else
    fs ++ [(p, c)]

/-- Shared state of the network (interface `AgentState` plus the fact
that both fields start out absent on a fresh network): `summary` and
`files` are `none` while the corresponding JavaScript fields are still
`undefined`. -/
structure AgentState where
  summary : Option String
  files : Option FileMap
deriving DecidableEq

/-- Initial shared state: `network.state.data` starts as an empty object,
so both fields are undefined. -/
def initialState : AgentState := { summary := none, files := none }

/-- Role of a transcript message. -/
inductive Role
  | assistant
  | user
  | toolRole
deriving DecidableEq

/-- Transcript message of one agent turn: either a plain text message or
a tool-call message. -/
inductive Message
  | text (role : Role) (content : String)
  | toolCall (role : Role) (name : String)
deriving DecidableEq

/-- Modelled from the spec: `lastAssistantTextMessageContent` is imported
from `./utils`, whose source is not provided.  Per spec section 4.3 it
extracts the last plain-text (non-tool-call) message emitted by the
assistant role in the turn transcript, returning its content, or nothing
when no such message exists. -/
def lastAssistantTextMessageContent (msgs : List Message) : Option String :=
  (msgs.filterMap fun m =>
    match m with
    | Message.text Role.assistant c => some c
    | _ => none).getLast?

/-- Embedding of the `onResponse` lifecycle hook (source lines 140-150):
extract the last assistant text message; if it is truthy (the `network`
reference is always supplied by the framework) and contains the sentinel,
store the entire message text as the summary; always hand back the
original turn result. -/
def onResponse (result : List Message) (st : AgentState) :
    List Message × AgentState :=
  let lastAssistantMessageText := lastAssistantTextMessageContent result
  match lastAssistantMessageText with
  | none => (result, st)
  | some t =>
      if t = "" then (result, st)
      else if jsIncludes t sentinel then
        (result, { st with summary := some t })
      else (result, st)

/-- Outcome of running a shell command in the sandbox, supplied by the
external sandbox (an oracle for this development): either the command
resolves with a stdout string, or the awaited call rejects with an error
after the two buffers captured the given partial output. -/
inductive CmdResult
  | success (stdout : String)
  | failure (err : String) (stdoutBuf : String) (stderrBuf : String)
deriving DecidableEq

/-- Embedding of the `terminal` tool handler body (source lines 56-77):
on success it returns the resolved stdout; on any caught exception it
returns the formatted message built from the error and both buffers
(note the source spells the second label `stderror`).  Totality of this
function is the embedding of the fact that the catch block swallows every
exception instead of rethrowing. -/
def terminal : CmdResult → String
  | CmdResult.success out => out
  | CmdResult.failure e so se =>
      "Command failed: " ++ e ++ " \nstdout: " ++ so ++ "\nstderror: " ++ se

/-- Value produced by the `createOrUpdateFiles` durable step: the updated
file object on success, or the string built by the catch block. -/
inductive StepVal
  | filesVal (fs : FileMap)
  | errVal (s : String)
deriving DecidableEq

/-- Application of one batch of `path, content` entries to a file object,
in sequence order, by repeated JavaScript assignment. -/
def applyEntries (fs : FileMap) (es : List (String × String)) : FileMap :=
  es.foldl (fun acc e => setKey acc e.1 e.2) fs

/-- Result of one `createOrUpdateFiles` tool invocation: the shared state
afterwards, the value the durable step produced, and the value the
handler itself returns to the framework. -/
structure WriteCallResult where
  state : AgentState
  stepResult : StepVal
  handlerReturn : Option StepVal
deriving DecidableEq

/-- Embedding of the `createOrUpdateFiles` tool handler (source lines
91-113).  `failure = some (k, e)` means the sandbox write of entry `k`
(0-based, `k` below the batch length) threw exception text `e`; `none`
means every write succeeded.  Faithfulness notes, keyed to the source:
line 97 binds `updatedFiles` to `network.state.data.files || \x7b\x7d`,
which ALIASES the live state object whenever `files` is already defined,
so every entry processed before a failure has already been recorded into
shared state when the catch block runs; the guard on line 110
(`typeof newFiles === "object"`) only controls the explicit re-assignment
on line 111; and the handler body has no return statement, so the value
handed back to the framework is `undefined`, modelled as `none`. -/
def createOrUpdateFiles (st : AgentState) (batch : List (String × String))
    (failure : Option (Nat × String)) : WriteCallResult :=
  let base := st.files.getD []
  match failure with
  | none =>
      let updated := applyEntries base batch
      { state := { st with files := some updated }
        stepResult := StepVal.filesVal updated
        handlerReturn := none }
  | some (k, e) =>
      let recorded := applyEntries base (batch.take k)
      { state :=
          { st with files := if st.files.isSome then some recorded else st.files }
        stepResult := StepVal.errVal ("Error: " ++ e)
        handlerReturn := none }

/-- Outcome of the sandbox reads performed by the `readFiles` tool,
supplied by the external sandbox: either every requested path resolved
with a content string, or some read threw the given exception text. -/
inductive ReadOutcome
  | success (contents : List (String × String))
  | failure (err : String)
deriving DecidableEq

/-- Return value of the `readFiles` tool handler (source lines 122-136).
The `jsonOf` constructor stands for `JSON.stringify` of the collected
`path, content` records; no claim depends on the encoded text itself. -/
inductive ReadResult
  | jsonOf (contents : List (String × String))
  | errorStr (s : String)
deriving DecidableEq

/-- Embedding of the `readFiles` tool handler body: collect the contents
and encode them, or turn a caught exception into an error string. -/
def readFiles : ReadOutcome → ReadResult
  | ReadOutcome.success cs => ReadResult.jsonOf cs
  | ReadOutcome.failure e => ReadResult.errorStr ("Error: " ++ e)

/-- One tool call of a turn, with the oracle data describing what the
external sandbox did.  The parameter lists of the source handlers are
mirrored here: `terminal` receives only the command (and the step
runner), `readFiles` only the path list, and only `createOrUpdateFiles`
receives the `network` reference. -/
inductive ToolCall
  | terminalCall (command : String) (outcome : CmdResult)
  | writeCall (batch : List (String × String)) (failure : Option (Nat × String))
  | readCall (paths : List String) (outcome : ReadOutcome)
deriving DecidableEq

/-- Output a tool call hands back to the conversation. -/
inductive ToolOutput
  | terminalOut (s : String)
  | readOut (r : ReadResult)
  | writeOut
deriving DecidableEq

/-- Effect of one tool call on the shared state, paired with the value
the handler returns.  The `terminal` and `readFiles` handlers never see
the `network` reference (source lines 56 and 122 destructure only their
arguments and `step`), so the state component passes through; the write
tool delegates to `createOrUpdateFiles`, whose handler returns
`undefined`. -/
def toolStep (st : AgentState) : ToolCall → AgentState × ToolOutput
  | ToolCall.terminalCall _ oc => (st, ToolOutput.terminalOut (terminal oc))
  | ToolCall.readCall _ ro => (st, ToolOutput.readOut (readFiles ro))
  | ToolCall.writeCall b f =>
      ((createOrUpdateFiles st b f).state, ToolOutput.writeOut)

/-- One agent turn as the orchestrator sees it: the tool calls the model
issued (executed in sequence) followed by the turn transcript handed to
the `onResponse` lifecycle hook. -/
structure Turn where
  calls : List ToolCall
  msgs : List Message

/-- Effect of one agent turn on the shared state: run the tool calls in
order, then the Completion Detector on the turn transcript. -/
def runTurn (st : AgentState) (t : Turn) : AgentState :=
  (onResponse t.msgs (t.calls.foldl (fun s c => (toolStep s c).1) st)).2

/-- Reference to an agent in the roster; the source configures exactly
one agent, `codeAgent` (source line 156). -/
inductive AgentRef
  | codeAgent
deriving DecidableEq

/-- Embedding of the router (source lines 158-166): halt (return no
agent) when the summary field is truthy, otherwise hand control to the
single configured agent. -/
def router (st : AgentState) : Option AgentRef :=
  if jsTruthyStr st.summary then none else some AgentRef.codeAgent

/-- Iteration cap configured on the network (source line 157). -/
def maxIter : Nat := 15

/-- Terminal condition of the orchestration loop. -/
inductive Terminal
  | haltedByRouter
  | haltedByLimit
deriving DecidableEq

/-- Final outcome of a network run: how many agent iterations ran, the
final shared state, and which terminal condition ended the loop. -/
structure RunResult where
  iterations : Nat
  state : AgentState
  terminal : Terminal
deriving DecidableEq

/-- Modelled from the spec: the orchestration loop itself lives in the
external agent-kit library; spec section 4.5 specifies it as: while the
iteration counter is below the cap, consult the router; halt when it
returns no agent, otherwise run the selected agent and increment the
counter; reaching the cap without a router halt is the distinct
`haltedByLimit` terminal state.  `turns` is the oracle giving the agent
turn executed at each iteration; `fuel` is the remaining iteration
budget. -/
def loopNet (turns : Nat → Turn) : Nat → Nat → AgentState → RunResult
  | 0, iter, st =>
      { iterations := iter, state := st, terminal := Terminal.haltedByLimit }
  | fuel + 1, iter, st =>
      match router st with
      | none =>
          { iterations := iter, state := st, terminal := Terminal.haltedByRouter }
      | some _ => loopNet turns fuel (iter + 1) (runTurn st (turns iter))

/-- Modelled from the spec: a full network run starts from the initial
shared state with the iteration counter at zero and the configured cap
as budget. -/
def runNetwork (turns : Nat → Turn) : RunResult :=
  loopNet turns maxIter 0 initialState

/-- Embedding of the completion predicate computed by the caller (source
lines 171-173): error when the summary is falsy or the file object
(defaulted to empty when undefined) has no keys. -/
def isError (st : AgentState) : Bool :=
  !jsTruthyStr st.summary || (st.files.getD []).isEmpty

/-- Nested artifact record created on success (source lines 200-206). -/
structure FragmentRec where
  sandboxUrl : String
  title : String
  files : FileMap
deriving DecidableEq

/-- Message record persisted by the `save-result` step (source lines
181-209). -/
structure MessageRec where
  projectId : String
  content : String
  role : String
  type : String
  fragment : Option FragmentRec
deriving DecidableEq

/-- Embedding of the `save-result` step (source lines 181-209): exactly
one message record is created; on a classified error it carries the
fixed generic content with type `ERROR` and no fragment, otherwise the
summary with type `RESULT` and the fragment holding the sandbox URL, the
fixed title and the file-set. -/
def saveResult (projectId sandboxUrl : String) (st : AgentState) : MessageRec :=
  if isError st then
    { projectId := projectId
      content := "Something went wrong. Please try again."
      role := "ASSISTANT"
      type := "ERROR"
      fragment := none }
  else
    { projectId := projectId
      content := st.summary.getD ""
      role := "ASSISTANT"
      type := "RESULT"
      fragment := some
        { sandboxUrl := sandboxUrl, title := "Fragment", files := st.files.getD [] } }

/-- Helper: a list leads with itself before any continuation. -/
theorem leadsWith_append (ns rest : List Char) : leadsWith ns (ns ++ rest) = true := by
  induction ns with
  | nil => rfl
  | cons n ns ih => simp [leadsWith, ih]

/-- Helper: an initial occurrence is an occurrence. -/
theorem occursIn_of_leadsWith (n l : List Char) (h : leadsWith n l = true) :
    occursIn n l = true := by
  cases l with
  | nil =>
      cases n with
      | nil => rfl
      | cons a as => simp [leadsWith] at h
  | cons x xs => simp [occursIn, h]

/-- Helper: occurrences survive prepending. -/
theorem occursIn_append_left (n pre l : List Char) (h : occursIn n l = true) :
    occursIn n (pre ++ l) = true := by
  induction pre with
  | nil => simpa using h
  | cons p ps ih => simp [occursIn, ih]

/-- Helper: a list occurs in any list that embeds it contiguously. -/
theorem occursIn_middle (n pre suf : List Char) :
    occursIn n (pre ++ (n ++ suf)) = true :=
  occursIn_append_left n pre (n ++ suf)
    (occursIn_of_leadsWith n (n ++ suf) (leadsWith_append n suf))

/-- Helper: `jsIncludes` holds whenever the underlying character list
decomposes around the needle. -/
theorem jsIncludes_of_data (hay mid : String) (pre suf : List Char)
    (h : hay.data = pre ++ (mid.data ++ suf)) : jsIncludes hay mid = true := by
  unfold jsIncludes
  rw [h]
  exact occursIn_middle mid.data pre suf

/-- Helper: the empty string does not contain the sentinel. -/
theorem sentinel_not_in_empty : jsIncludes "" sentinel = false := by decide

/-- Helper: a string containing the sentinel is not empty. -/
theorem includes_sentinel_ne_empty (t : String) (h : jsIncludes t sentinel = true) :
    ¬ t = "" := by
  intro he
  subst he
  rw [sentinel_not_in_empty] at h
  exact Bool.noConfusion h

/-- Helper: after the JavaScript assignment `obj[p] = c`, reading key `p`
yields `c` (a later write to a path overwrites the earlier one). -/
theorem lookup_setKey (fs : FileMap) (p c : String) :
    (setKey fs p c).lookup p = some c := by
  induction fs with
  | nil => simp [setKey, List.lookup]
  | cons hd tl ih =>
      by_cases hp : hd.1 = p
      · simp [setKey, List.lookup, hp]
      · have hbe : (p == hd.1) = false := by
          rw [beq_eq_false_iff_ne]
          exact fun h => hp h.symm
        have hhd : (if hd.1 = p then (p, c) else hd) = hd := if_neg hp
        by_cases ht : (List.lookup p tl).isSome = true
        · have ihm : List.lookup p
              (List.map (fun e => if e.1 = p then (p, c) else e) tl) = some c := by
            simpa [setKey, ht] using ih
          simp [setKey, List.lookup, hbe, hhd, ht, ihm]
        · have iha : List.lookup p (tl ++ [(p, c)]) = some c := by
            simpa [setKey, ht] using ih
          simp [setKey, List.lookup, hbe, hhd, ht, iha]

/-- Helper: the Completion Detector never touches the files field. -/
theorem onResponse_files (msgs : List Message) (st : AgentState) :
    ((onResponse msgs st).2).files = st.files := by
  cases hm : lastAssistantTextMessageContent msgs with
  | none => simp [onResponse, hm]
  | some t =>
      by_cases ht : t = ""
      · simp [onResponse, hm, ht]
      · by_cases hi : jsIncludes t sentinel = true <;> simp [onResponse, hm, ht, hi]

/-- Helper: no tool handler changes the summary field. -/
theorem toolStep_summary (st : AgentState) (c : ToolCall) :
    ((toolStep st c).1).summary = st.summary := by
  cases c with
  | terminalCall cmd oc => rfl
  | readCall ps ro => rfl
  | writeCall b f =>
      cases f with
      | none => rfl
      | some ke => cases ke with | mk k e => rfl

/-- Helper: a whole sequence of tool calls leaves the summary alone. -/
theorem foldTools_summary (cs : List ToolCall) (st : AgentState) :
    (cs.foldl (fun s c => (toolStep s c).1) st).summary = st.summary := by
  induction cs generalizing st with
  | nil => rfl
  | cons c cs ih =>
      rw [List.foldl_cons, ih]
      exact toolStep_summary st c

/-- Invariant on the shared state: when the summary is set, it contains
the sentinel substring. -/
def summaryOk (st : AgentState) : Bool :=
  match st.summary with
  | none => true
  | some t => jsIncludes t sentinel

/-- Helper: the invariant only looks at the summary field. -/
theorem summaryOk_congr (st st' : AgentState) (h : st'.summary = st.summary) :
    summaryOk st' = summaryOk st := by
  unfold summaryOk
  rw [h]

/-- Helper: the Completion Detector preserves the invariant. -/
theorem summaryOk_onResponse (msgs : List Message) (st : AgentState)
    (h : summaryOk st = true) : summaryOk ((onResponse msgs st).2) = true := by
  cases hm : lastAssistantTextMessageContent msgs with
  | none => simpa [onResponse, hm] using h
  | some t =>
      by_cases ht : t = ""
      · simpa [onResponse, hm, ht] using h
      · by_cases hi : jsIncludes t sentinel = true
        · simp [onResponse, hm, ht, hi, summaryOk]
        · simpa [onResponse, hm, ht, hi] using h

/-- Helper: one full agent turn preserves the invariant. -/
theorem summaryOk_runTurn (st : AgentState) (t : Turn)
    (h : summaryOk st = true) : summaryOk (runTurn st t) = true := by
  unfold runTurn
  apply summaryOk_onResponse
  rw [summaryOk_congr st _ (foldTools_summary t.calls st)]
  exact h

/-- Helper: the orchestration loop preserves the invariant. -/
theorem summaryOk_loopNet (turns : Nat → Turn) (fuel iter : Nat) (st : AgentState)
    (h : summaryOk st = true) :
    summaryOk ((loopNet turns fuel iter st).state) = true := by
  induction fuel generalizing iter st with
  | zero => exact h
  | succ n ih =>
      cases hr : router st with
      | none => simpa [loopNet, hr] using h
      | some a =>
          simpa [loopNet, hr] using
            ih (iter + 1) (runTurn st (turns iter)) (summaryOk_runTurn st _ h)

/-- Helper: under the invariant, truthiness of the summary coincides with
its presence. -/
theorem summaryOk_truthy (st : AgentState) (h : summaryOk st = true) :
    jsTruthyStr st.summary = st.summary.isSome := by
  cases hs : st.summary with
  | none => rfl
  | some t =>
      have hinc : jsIncludes t sentinel = true := by
        simpa [summaryOk, hs] using h
      have hne : ¬ t = "" := includes_sentinel_ne_empty t hinc
      simp [jsTruthyStr, hne]

/-- Helper: the router returns no agent exactly when the summary field is
truthy. -/
theorem router_isNone (st : AgentState) :
    (router st).isNone = jsTruthyStr st.summary := by
  unfold router
  by_cases h : jsTruthyStr st.summary = true <;> simp [h]

/-- Helper: iteration count of the loop never exceeds the remaining
budget added to the running counter. -/
theorem loopNet_iterations_le (turns : Nat → Turn) (fuel iter : Nat)
    (st : AgentState) :
    (loopNet turns fuel iter st).iterations ≤ iter + fuel := by
  induction fuel generalizing iter st with
  | zero => simp [loopNet]
  | succ n ih =>
      cases hr : router st with
      | none => simp [loopNet, hr]
      | some a =>
          have h := ih (iter + 1) (runTurn st (turns iter))
          simp only [loopNet, hr]
          omega

/-- Helper: the loop ends in the limit terminal state exactly when it
consumed its whole budget. -/
theorem loopNet_limit_iff (turns : Nat → Turn) (fuel iter : Nat)
    (st : AgentState) :
    ((loopNet turns fuel iter st).terminal = Terminal.haltedByLimit) ↔
      (loopNet turns fuel iter st).iterations = iter + fuel := by
  induction fuel generalizing iter st with
  | zero => simp [loopNet]
  | succ n ih =>
      cases hr : router st with
      | none =>
          simp only [loopNet, hr]
          constructor
          · intro h
            exact absurd h (by simp)
          · intro h
            omega
      | some a =>
          rw [show loopNet turns (n + 1) iter st
              = loopNet turns n (iter + 1) (runTurn st (turns iter)) by
                simp [loopNet, hr]]
          rw [ih (iter + 1) (runTurn st (turns iter))]
          omega

/-- Sequence of successful `createOrUpdateFiles` calls, applied to the
shared state in call order. -/
def runBatches (st : AgentState) (bs : List (List (String × String))) : AgentState :=
  bs.foldl (fun s b => (createOrUpdateFiles s b none).state) st

/-- Left-fold of successful write batches over the empty file object, the
reference map of spec section 8. -/
def foldBatches (bs : List (List (String × String))) : FileMap :=
  bs.foldl (fun acc b => applyEntries acc b) []

/-- Helper: the file object after successful batches is the left-fold of
the batches over the starting object. -/
theorem runBatches_files (bs : List (List (String × String))) (st : AgentState) :
    (runBatches st bs).files.getD []
      = bs.foldl (fun a b => applyEntries a b) (st.files.getD []) := by
  induction bs generalizing st with
  | nil => rfl
  | cons b bs ih =>
      rw [show runBatches st (b :: bs)
          = runBatches ((createOrUpdateFiles st b none).state) bs from rfl]
      rw [ih]
      rfl

/-- Helper: successful batches never touch the summary. -/
theorem runBatches_summary (bs : List (List (String × String))) (st : AgentState) :
    (runBatches st bs).summary = st.summary := by
  induction bs generalizing st with
  | nil => rfl
  | cons b bs ih =>
      rw [show runBatches st (b :: bs)
          = runBatches ((createOrUpdateFiles st b none).state) bs from rfl]
      rw [ih]
      rfl

/-- Claim C1: the Completion Detector sets the summary exactly when the
last assistant plain-text message of the turn exists and contains the
sentinel substring; when it fires it stores the entire message text
verbatim (sentinel included, nothing stripped); it never touches the
files field; and it always returns the original turn result unmodified. -/
theorem completionDetector_spec (msgs : List Message) (st : AgentState) :
    (onResponse msgs st).1 = msgs ∧
    ((onResponse msgs st).2).files = st.files ∧
    ((onResponse msgs st).2).summary =
      (match lastAssistantTextMessageContent msgs with
       | none => st.summary
       | some t => if jsIncludes t sentinel then some t else st.summary) := by
  cases hm : lastAssistantTextMessageContent msgs with
  | none => simp [onResponse, hm]
  | some t =>
      by_cases ht : t = ""
      · subst ht
        simp [onResponse, hm, sentinel_not_in_empty]
      · by_cases hi : jsIncludes t sentinel = true
        · simp [onResponse, hm, ht, hi]
        · simp [onResponse, hm, ht, hi]

/-- Claim C2 (code evaluation at the failing input): starting from the
reachable state left by a successful batch writing `a.txt`, a second
batch `b.txt, c.txt` whose sandbox write of entry 1 throws leaves
`b.txt` recorded in the shared files map (the step body mutated the
aliased live object before the exception), while the step value is the
error string and the handler returns `undefined`, contradicting the
claim that the files map is unchanged for the failing batch. -/
theorem createOrUpdateFiles_midBatch_mutation :
    ((createOrUpdateFiles initialState [("a.txt", "1")] none).state).files
      = some [("a.txt", "1")] ∧
    (createOrUpdateFiles
        ((createOrUpdateFiles initialState [("a.txt", "1")] none).state)
        [("b.txt", "2"), ("c.txt", "3")]
        (some (1, "EACCES: permission denied"))).state.files
      = some [("a.txt", "1"), ("b.txt", "2")] ∧
    (createOrUpdateFiles
        ((createOrUpdateFiles initialState [("a.txt", "1")] none).state)
        [("b.txt", "2"), ("c.txt", "3")]
        (some (1, "EACCES: permission denied"))).stepResult
      = StepVal.errVal ("Error: " ++ "EACCES: permission denied") ∧
    (createOrUpdateFiles
        ((createOrUpdateFiles initialState [("a.txt", "1")] none).state)
        [("b.txt", "2"), ("c.txt", "3")]
        (some (1, "EACCES: permission denied"))).handlerReturn
      = none := by
  refine ⟨rfl, ?_, rfl, rfl⟩
  decide

/-- Claim C3 (counterexample to the claim as stated): on a successful
batch the durable step produces the full updated map and the shared
state receives it, but the handler hands `undefined` back to the agent,
not the map, because its body has no return statement. -/
theorem createOrUpdateFiles_return_cex :
    (createOrUpdateFiles initialState [("index.html", "hello")] none).stepResult
      = StepVal.filesVal [("index.html", "hello")] ∧
    (createOrUpdateFiles initialState [("index.html", "hello")] none).state.files
      = some [("index.html", "hello")] ∧
    (createOrUpdateFiles initialState [("index.html", "hello")] none).handlerReturn
      = none ∧
    (createOrUpdateFiles initialState [("index.html", "hello")] none).handlerReturn
      ≠ some (StepVal.filesVal [("index.html", "hello")]) := by
  refine ⟨?_, ?_, rfl, by decide⟩ <;> decide

/-- Claim C3 (amended): over any sequence of successful batches the
shared files map equals the left-fold of the batches in call order over
the initial empty map (entries applied in sequence order, a later write
to the same path overwriting the earlier one, witnessed by the lookup
equation); each successful call stores the full updated map in shared
state and its durable step produces that map, while the handler itself
returns `undefined` to the agent. -/
theorem createOrUpdateFiles_fold_spec (bs : List (List (String × String)))
    (st : AgentState) (b : List (String × String)) (fm : FileMap) (p c : String) :
    (runBatches initialState bs).files.getD [] = foldBatches bs ∧
    (runBatches initialState bs).summary = none ∧
    (createOrUpdateFiles st b none).state.files
      = some (applyEntries (st.files.getD []) b) ∧
    (createOrUpdateFiles st b none).stepResult
      = StepVal.filesVal (applyEntries (st.files.getD []) b) ∧
    (createOrUpdateFiles st b none).handlerReturn = none ∧
    (setKey fm p c).lookup p = some c := by
  refine ⟨?_, ?_, rfl, rfl, rfl, lookup_setKey fm p c⟩
  · rw [runBatches_files]
    rfl
  · rw [runBatches_summary]
    rfl

/-- Claim C4: the router halts (returns no agent) exactly when the
summary is present and non-empty, and in every other case it returns the
single configured agent. -/
theorem router_halt_iff (st : AgentState) :
    ((router st = none) ↔ (∃ t, st.summary = some t ∧ t ≠ "")) ∧
    (router st = none ∨ router st = some AgentRef.codeAgent) := by
  constructor
  · cases hs : st.summary with
    | none => simp [router, jsTruthyStr, hs]
    | some t =>
        by_cases ht : t = ""
        · subst ht
          simp [router, jsTruthyStr, hs]
        · simp [router, jsTruthyStr, hs, ht]
  · unfold router
    by_cases h : jsTruthyStr st.summary = true <;> simp [h]

/-- Claim C4 witness: concrete evaluation of the router contract on a
state whose summary is a non-empty sentinel-bearing string. -/
theorem router_halt_iff_check :
    ((router { summary := some "<task_summary> done", files := none } = none) ↔
      (∃ t, ({ summary := some "<task_summary> done", files := none } : AgentState).summary
          = some t ∧ t ≠ "")) ∧
    (router { summary := some "<task_summary> done", files := none } = none ∨
      router { summary := some "<task_summary> done", files := none }
        = some AgentRef.codeAgent) :=
  router_halt_iff { summary := some "<task_summary> done", files := none }

/-- Claim C5: for every final shared state a network run can produce,
the caller classifies the run as an error exactly when the summary is
absent or the files map is empty; the predicate reads only the final
state, so the classification does not depend on which terminal condition
ended the loop. -/
theorem isError_final_classification (turns : Nat → Turn) :
    isError ((runNetwork turns).state) =
      (((runNetwork turns).state).summary.isNone ||
        (((runNetwork turns).state).files.getD []).isEmpty) := by
  have hok : summaryOk ((runNetwork turns).state) = true :=
    summaryOk_loopNet turns maxIter 0 initialState rfl
  have ht := summaryOk_truthy _ hok
  unfold isError
  rw [ht]
  cases hs : ((runNetwork turns).state).summary <;> simp [hs]

/-- Claim C6: the single persisted message record carries the project
reference and role `ASSISTANT`; on a classified error its content is the
fixed generic string with type `ERROR` and no nested fragment; on
success its content is the stored summary with type `RESULT` and a
fragment carrying the sandbox URL, the fixed title `Fragment`, and the
file-set. -/
theorem saveResult_fields (pid url : String) (st : AgentState) :
    (saveResult pid url st).projectId = pid ∧
    (saveResult pid url st).role = "ASSISTANT" ∧
    (saveResult pid url st).content =
      (if isError st then "Something went wrong. Please try again."
       else st.summary.getD "") ∧
    (saveResult pid url st).type = (if isError st then "ERROR" else "RESULT") ∧
    (saveResult pid url st).fragment =
      (if isError st then none
       else some { sandboxUrl := url, title := "Fragment", files := st.files.getD [] }) := by
  by_cases h : isError st = true
  · simp [saveResult, h]
  · simp [saveResult, h]

/-- Claim C7: the terminal tool is a total function of the command
outcome (the catch block swallows every exception, so nothing propagates
to the agent); on success it returns the captured stdout, and on failure
it returns the formatted message, which contains the error text and both
captured buffers as substrings. -/
theorem terminal_result_spec (out e so se : String) :
    terminal (CmdResult.success out) = out ∧
    terminal (CmdResult.failure e so se) =
      "Command failed: " ++ e ++ " \nstdout: " ++ so ++ "\nstderror: " ++ se ∧
    jsIncludes (terminal (CmdResult.failure e so se)) e = true ∧
    jsIncludes (terminal (CmdResult.failure e so se)) so = true ∧
    jsIncludes (terminal (CmdResult.failure e so se)) se = true := by
  refine ⟨rfl, rfl, ?_, ?_, ?_⟩
  · exact jsIncludes_of_data _ e "Command failed: ".data
      (" \nstdout: ".data ++ (so.data ++ ("\nstderror: ".data ++ se.data)))
      (by simp [terminal, String.data_append, List.append_assoc])
  · exact jsIncludes_of_data _ so
      ("Command failed: ".data ++ (e.data ++ " \nstdout: ".data))
      ("\nstderror: ".data ++ se.data)
      (by simp [terminal, String.data_append, List.append_assoc])
  · exact jsIncludes_of_data _ se
      ("Command failed: ".data ++ (e.data ++ (" \nstdout: ".data
        ++ (so.data ++ "\nstderror: ".data)))) []
      (by simp [terminal, String.data_append, List.append_assoc])

/-- Claim C8: a run performs at most the configured 15 agent iterations,
it ends in the limit terminal state exactly when all 15 were consumed
without a router halt, and that terminal state is distinct from the
router-driven halt. -/
theorem orchestrator_iteration_cap (turns : Nat → Turn) :
    (runNetwork turns).iterations ≤ maxIter ∧
    (((runNetwork turns).terminal = Terminal.haltedByLimit) ↔
      (runNetwork turns).iterations = maxIter) ∧
    Terminal.haltedByLimit ≠ Terminal.haltedByRouter := by
  refine ⟨?_, ?_, by decide⟩
  · simpa [runNetwork] using loopNet_iterations_le turns maxIter 0 initialState
  · simpa [runNetwork] using loopNet_limit_iff turns maxIter 0 initialState

/-- Schedule of idle agent turns: no tool calls and no messages, so the
sentinel is never emitted and the router never halts. -/
def idleTurns : Nat → Turn := fun _ => { calls := [], msgs := [] }

/-- Claim C8 witness: the cap contract evaluated on the idle schedule,
which exhausts all 15 iterations. -/
theorem orchestrator_iteration_cap_check :
    (runNetwork idleTurns).iterations ≤ maxIter ∧
    (((runNetwork idleTurns).terminal = Terminal.haltedByLimit) ↔
      (runNetwork idleTurns).iterations = maxIter) ∧
    Terminal.haltedByLimit ≠ Terminal.haltedByRouter :=
  orchestrator_iteration_cap idleTurns

/-- Claim C9: the terminal and readFiles tool invocations leave the
shared state (files and summary alike) exactly as they found it, a write
invocation never touches the summary, and the Completion Detector never
touches the files map: only the `createOrUpdateFiles` handler mutates the
files map. -/
theorem tools_frame_effect (st : AgentState) (cmd : String) (oc : CmdResult)
    (paths : List String) (ro : ReadOutcome) (b : List (String × String))
    (f : Option (Nat × String)) (msgs : List Message) :
    (toolStep st (ToolCall.terminalCall cmd oc)).1 = st ∧
    (toolStep st (ToolCall.readCall paths ro)).1 = st ∧
    ((toolStep st (ToolCall.writeCall b f)).1).summary = st.summary ∧
    ((onResponse msgs st).2).files = st.files :=
  ⟨rfl, rfl, toolStep_summary st (ToolCall.writeCall b f), onResponse_files msgs st⟩

/-- Claim C10: on every final state of a network run the summary, when
set, contains the sentinel substring (hence is non-empty), so the truthy
test used by the router coincides with presence of the summary and the
negation test used by the error classification coincides with its
absence. -/
theorem summary_invariant_agreement (turns : Nat → Turn) :
    summaryOk ((runNetwork turns).state) = true ∧
    jsTruthyStr ((runNetwork turns).state).summary
      = ((runNetwork turns).state).summary.isSome ∧
    (router ((runNetwork turns).state)).isNone
      = ((runNetwork turns).state).summary.isSome ∧
    (!jsTruthyStr ((runNetwork turns).state).summary)
      = ((runNetwork turns).state).summary.isNone := by
  have hok : summaryOk ((runNetwork turns).state) = true :=
    summaryOk_loopNet turns maxIter 0 initialState rfl
  have ht := summaryOk_truthy _ hok
  refine ⟨hok, ht, ?_, ?_⟩
  · rw [router_isNone, ht]
  · rw [ht]
    cases hs : ((runNetwork turns).state).summary <;> simp [hs]
